import Mathlib

/-!
Shallow embedding of the physics-lab simulation core.

The definitions below translate, component by component, the numerical
simulation code of the repository:

* `pendAnimate`      — the per-frame update of `SimplePendulum.tsx` (`animate`),
* `inclineAnimate`   — the per-frame update of `InclinedPlane.tsx` (`animate`),
* `inclineAcceleration` — `InclinedPlane.tsx` (`calculations`),
* `mruAnimate` / `mruvAnimate` — the per-frame updates of `MRU.tsx` and
  `MRUV.tsx` (`animate`), together with their closed-form kinematics
  (`mruPosition`, `mruvPosition`, `mruvVelocity`),
* `pairForce`, `netForceOn`, `integrateBody`, `wallBody`, `stepBody`,
  `prefixSteps`, `nbodyStep` — the N-body engine of `ParticleSimulator.tsx`
  (`gameLoop`), including its sequential in-place update of the particle
  array,
* `mkParticle`, `resetSimulationPopulation` — `ParticleSimulator.tsx`
  (`resetSimulation`), with the random draws of `Math.random()` modelled as
  an explicit stream `ℕ → ℝ` consumed in program order,
* `projectileTimeOfFlight`, `projectileRange`, `projectileHeightAt`,
  `trajectoryData` — `InclinedPlane.tsx` (`ProjectileMotion`,
  `trajectoryData` and `calculations`).

JavaScript numbers are modelled as real numbers; animation-frame timestamps
are real-valued parameters.  `specSemiImplicitEuler` is not translated from
the source: it is the spec's own description of a semi-implicit Euler step,
used to compare the integrators against the specification.
-/

namespace PhysicsLab

open Real

/-! ### Simple pendulum (`SimplePendulum.tsx`) -/

/-- The mutable simulation record of `SimplePendulum.tsx`
(`simulationState.current`). -/
structure PendState where
  angle : ℝ
  angularVelocity : ℝ
  time : ℝ
  lastUpdateTime : ℝ

/-- One call of `animate(timestamp)` in `SimplePendulum.tsx` (lines 105-117):
if a baseline timestamp is recorded (`lastUpdateTime > 0`) integrate one
semi-implicit Euler step with unconditional damping 0.999 over
`deltaTime = (timestamp - lastUpdateTime) / 1000`; in every case record the
timestamp as the new baseline. -/
noncomputable def pendAnimate (gravity len ts : ℝ) (s : PendState) : PendState :=
  if 0 < s.lastUpdateTime then
    let deltaTime := (ts - s.lastUpdateTime) / 1000
    let angularAcceleration := -(gravity / len) * s.angle
    let v1 := s.angularVelocity + angularAcceleration * deltaTime
    let v2 := v1 * 0.999
    { angle := s.angle + v2 * deltaTime
      angularVelocity := v2
      time := s.time + deltaTime
      lastUpdateTime := ts }
  else
    { s with lastUpdateTime := ts }

/-- The start-of-run effect in `SimplePendulum.tsx` (line 124): when the
pendulum switches to running, the baseline timestamp is set to the current
wall-clock time `performance.now()` (it is not cleared). -/
def pendStartRun (now : ℝ) (s : PendState) : PendState :=
  { s with lastUpdateTime := now }

/-- `resetState` in `SimplePendulum.tsx` (lines 133-144): the state after a
reset, computed from the `initialAngle` parameter only. -/
noncomputable def resetPendulumState (initialAngle : ℝ) : PendState :=
  { angle := initialAngle * π / 180
    angularVelocity := 0
    time := 0
    lastUpdateTime := 0 }

/-- `resetState` viewed as a transition on the previous state: the previous
state is discarded entirely. -/
noncomputable def pendResetFrom (initialAngle : ℝ) (_prev : PendState) : PendState :=
  resetPendulumState initialAngle

/-! ### Inclined plane (`InclinedPlane.tsx`) -/

/-- The mutable simulation record of `InclinedPlane.tsx`
(`simulationState.current`). -/
structure InclineState where
  position : ℝ
  velocity : ℝ
  time : ℝ
  lastUpdateTime : ℝ

/-- `calculations` in `InclinedPlane.tsx` (lines 26-34) with `GRAVITY = 9.81`:
net force along the incline and the resulting acceleration, zero unless the
net force is positive. -/
noncomputable def inclineAcceleration (angleDeg mass friction : ℝ) : ℝ :=
  let angleRad := angleDeg * π / 180
  let forceParallel := mass * 9.81 * Real.sin angleRad
  let forceNormal := mass * 9.81 * Real.cos angleRad
  let forceFriction := friction * forceNormal
  let net := forceParallel - forceFriction
  if 0 < net then net / mass else 0

/-- One call of `animate(timestamp)` in `InclinedPlane.tsx` (lines 107-124),
with the acceleration passed as a parameter (the component reads it from
`calculations.acceleration`) and `maxPosition = 15`. -/
noncomputable def inclineAnimate (accel ts : ℝ) (s : InclineState) : InclineState :=
  if 0 < s.lastUpdateTime then
    let deltaTime := (ts - s.lastUpdateTime) / 1000
    let v := s.velocity + accel * deltaTime
    let p := s.position + v * deltaTime
    { position := if 15 ≤ p then 15 else p
      velocity := v
      time := s.time + deltaTime
      lastUpdateTime := ts }
  else
    { s with lastUpdateTime := ts }

/-- The start-of-run effect in `InclinedPlane.tsx` (line 127): the baseline
timestamp is set to `performance.now()`. -/
def inclineStartRun (now : ℝ) (s : InclineState) : InclineState :=
  { s with lastUpdateTime := now }

/-! ### Uniform and uniformly accelerated motion (`MRU.tsx`, `MRUV.tsx`) -/

/-- One call of `animate(timestamp)` in `MRU.tsx` (lines 43-60): if no
baseline is recorded (`lastTimeRef.current === null`) the timestamp itself
becomes the baseline, making the first delta zero; the elapsed time advances
by the delta and is clamped at `totalTime`.  Returns the new elapsed time and
the new baseline. -/
noncomputable def mruAnimate (totalTime ts elapsed : ℝ) (lastTime : Option ℝ) :
    ℝ × Option ℝ :=
  let last := lastTime.getD ts
  let deltaTime := (ts - last) / 1000
  let newTime := elapsed + deltaTime
  (if totalTime ≤ newTime then totalTime else newTime, some ts)

/-- One call of `animate(timestamp)` in `MRUV.tsx` (lines 48-65); the code is
identical to the `MRU.tsx` loop. -/
noncomputable def mruvAnimate (totalTime ts elapsed : ℝ) (lastTime : Option ℝ) :
    ℝ × Option ℝ :=
  let last := lastTime.getD ts
  let deltaTime := (ts - last) / 1000
  let newTime := elapsed + deltaTime
  (if totalTime ≤ newTime then totalTime else newTime, some ts)

/-- `currentPosition` in `MRU.tsx` (lines 23-25). -/
noncomputable def mruPosition (initialPosition velocity t : ℝ) : ℝ :=
  initialPosition + velocity * t

/-- The position of `currentValues` in `MRUV.tsx` (lines 24-29). -/
noncomputable def mruvPosition (initialPosition initialVelocity accel t : ℝ) : ℝ :=
  initialPosition + initialVelocity * t + 0.5 * accel * t * t

/-- The velocity of `currentValues` in `MRUV.tsx` (lines 24-29). -/
noncomputable def mruvVelocity (initialVelocity accel t : ℝ) : ℝ :=
  initialVelocity + accel * t

/-- Semi-implicit Euler as the specification describes it (glossary and
section 4.3): update the velocity from the acceleration first, then the
position from the updated velocity.  Written from the spec's words, for
comparison with the integrators translated from the source. -/
noncomputable def specSemiImplicitEuler (a dt x v : ℝ) : ℝ × ℝ :=
  let v2 := v + a * dt
  (x + v2 * dt, v2)

/-! ### N-body particle engine (`ParticleSimulator.tsx`) -/

/-- The `Particle` interface of `ParticleSimulator.tsx`. -/
structure Particle where
  x : ℝ
  y : ℝ
  vx : ℝ
  vy : ℝ
  radius : ℝ
  mass : ℝ
  charge : ℝ
  color : String

/-- The force exerted on particle `p` by particle `q`, as accumulated in the
inner loop of `gameLoop` (lines 97-113), with `G = 0.5` and `k = 10` scaled
by the gravity and electrostatics sliders; the whole contribution is skipped
when the separation is not above 2. -/
noncomputable def pairForce (gravity electrostatics : ℝ) (p q : Particle) : ℝ × ℝ :=
  let dx := q.x - p.x
  let dy := q.y - p.y
  let distSq := dx * dx + dy * dy
  let dist := Real.sqrt distSq
  if 2 < dist then
    let forceGrav := 0.5 * gravity * p.mass * q.mass / distSq
    let forceElec := 10 * electrostatics * p.charge * q.charge / distSq
    (forceGrav * (dx / dist) - forceElec * (dx / dist),
     forceGrav * (dy / dist) - forceElec * (dy / dist))
  else
    (0, 0)

/-- The net force on the particle `p` stored at index `i`, summed over all
other indices of the (partially updated) array, as in the inner loop of
`gameLoop`. -/
noncomputable def netForceOn (gravity electrostatics : ℝ) (p : Particle) (i : ℕ)
    (ps : List Particle) : ℝ × ℝ :=
  ps.enum.foldl
    (fun acc jq =>
      if jq.1 = i then acc
      else (acc.1 + (pairForce gravity electrostatics p jq.2).1,
            acc.2 + (pairForce gravity electrostatics p jq.2).2))
    (0, 0)

/-- Lines 116-122 of `gameLoop`: convert the net force to an acceleration,
add the full acceleration to the velocity, then the full updated velocity to
the position (no timestamp is consulted). -/
noncomputable def integrateBody (gravity electrostatics : ℝ) (ps : List Particle)
    (i : ℕ) (p : Particle) : Particle :=
  let f := netForceOn gravity electrostatics p i ps
  let ax := f.1 / p.mass
  let ay := f.2 / p.mass
  let vx := p.vx + ax
  let vy := p.vy + ay
  { p with vx := vx, vy := vy, x := p.x + vx, y := p.y + vy }

/-- Lines 124-128 of `gameLoop`: wall collisions.  A velocity component is
multiplied by -0.8 when the integrated position left the corresponding axis
range, and the position is clamped back into the domain. -/
noncomputable def wallBody (w h : ℝ) (p : Particle) : Particle :=
  let vx := if p.x < 0 ∨ w < p.x then p.vx * (-0.8) else p.vx
  let vy := if p.y < 0 ∨ h < p.y then p.vy * (-0.8) else p.vy
  { p with vx := vx, vy := vy, x := max 0 (min w p.x), y := max 0 (min h p.y) }

/-- One iteration of the outer `for i` loop of `gameLoop`: the particle at
index `i` is integrated against the current (partially updated) array and
written back in place. -/
noncomputable def stepBody (gravity electrostatics w h : ℝ) (acc : List Particle)
    (i : ℕ) : List Particle :=
  match acc[i]? with
  | some p => acc.set i (wallBody w h (integrateBody gravity electrostatics acc i p))
  | none => acc

/-- The first `n` iterations of the outer loop of `gameLoop`. -/
noncomputable def prefixSteps (gravity electrostatics w h : ℝ) (ps : List Particle)
    (n : ℕ) : List Particle :=
  (List.range n).foldl (stepBody gravity electrostatics w h) ps

/-- One whole tick of `gameLoop` (lines 87-135): every index is processed in
order, each against the array as mutated so far.  The function takes no
timestamp; the canvas dimensions `w`, `h` are the engine constants fixed at
mount. -/
noncomputable def nbodyStep (gravity electrostatics w h : ℝ) (ps : List Particle) :
    List Particle :=
  prefixSteps gravity electrostatics w h ps ps.length

/-- One particle created by `resetSimulation` in `ParticleSimulator.tsx`
(lines 38-56) from five consecutive `Math.random()` draws, in program order:
charge class, x, y, vx, vy. -/
noncomputable def mkParticle (w h r1 r2 r3 r4 r5 : ℝ) : Particle :=
  let c : ℤ := ⌊r1 * 3⌋ - 1
  { x := r2 * w
    y := r3 * h
    vx := (r4 - 0.5) * 2
    vy := (r5 - 0.5) * 2
    radius := if c = 1 then 3 else if c = -1 then 2 else 3
    mass := if c = 1 then 2 else if c = -1 then 1 else 2.1
    charge := (c : ℝ)
    color := if c = 1 then "#38bdf8" else if c = -1 then "#f43f5e" else "#a1a1aa" }

/-- `resetSimulation` in `ParticleSimulator.tsx` (lines 33-58): 50 particles
are created in bulk, each consuming five draws from the random stream `rand`
starting at position `start` (a second reset in succession continues the
stream 250 draws later). -/
noncomputable def resetSimulationPopulation (w h : ℝ) (rand : ℕ → ℝ) (start : ℕ) :
    List Particle :=
  (List.range 50).map fun i =>
    mkParticle w h (rand (start + 5 * i)) (rand (start + 5 * i + 1))
      (rand (start + 5 * i + 2)) (rand (start + 5 * i + 3)) (rand (start + 5 * i + 4))

/-- A random stream on which two successive `resetSimulation` calls can be
compared: the first reset consumes draws 0-249, the second draws 250-499. -/
noncomputable def crandStream : ℕ → ℝ :=
  fun k => if k < 250 then 0 else 1 / 2

/-! ### Projectile motion (`InclinedPlane.tsx`, `ProjectileMotion`) -/

/-- `timeOfFlight` as computed in both `trajectoryData` (line 272) and
`calculations` (line 303) of `ProjectileMotion`, with `GRAVITY = 9.81`. -/
noncomputable def projectileTimeOfFlight (velocity angleDeg height : ℝ) : ℝ :=
  let angleRad := angleDeg * π / 180
  let v0y := velocity * Real.sin angleRad
  (v0y + Real.sqrt (v0y ^ 2 + 2 * 9.81 * height)) / 9.81

/-- `range` in `calculations` of `ProjectileMotion` (line 304). -/
noncomputable def projectileRange (velocity angleDeg height : ℝ) : ℝ :=
  let angleRad := angleDeg * π / 180
  velocity * Real.cos angleRad * projectileTimeOfFlight velocity angleDeg height

/-- The height `y(t)` used in the sampling loop of `trajectoryData`
(line 279). -/
noncomputable def projectileHeightAt (velocity angleDeg height t : ℝ) : ℝ :=
  let angleRad := angleDeg * π / 180
  height + velocity * Real.sin angleRad * t - 0.5 * 9.81 * t ^ 2

/-- `trajectoryData` of `ProjectileMotion` (lines 267-289): 101 samples at
equal fractions of the time of flight, kept only while the height is
nonnegative, followed by a final sample placed exactly on the ground. -/
noncomputable def trajectoryData (velocity angleDeg height : ℝ) :
    List (ℝ × ℝ × ℝ) :=
  let angleRad := angleDeg * π / 180
  let v0x := velocity * Real.cos angleRad
  let tof := projectileTimeOfFlight velocity angleDeg height
  let pts := (List.range 101).filterMap fun i =>
    let t := ((i : ℝ) / 100) * tof
    let x := v0x * t
    let y := projectileHeightAt velocity angleDeg height t
    if 0 ≤ y then some (t, x, y) else none
  pts ++ [(tof, v0x * tof, 0)]

/-! ### Structural lemmas about the N-body tick -/

theorem length_stepBody (g e w h : ℝ) (l : List Particle) (i : ℕ) :
    (stepBody g e w h l i).length = l.length := by
  unfold stepBody
  split
  · simp
  · rfl

theorem length_prefixSteps (g e w h : ℝ) (ps : List Particle) (n : ℕ) :
    (prefixSteps g e w h ps n).length = ps.length := by
  induction n with
  | zero => rfl
  | succ n ih =>
      unfold prefixSteps
      rw [List.range_succ, List.foldl_append, List.foldl_cons, List.foldl_nil]
      rw [length_stepBody]
      exact ih

theorem prefixSteps_succ (g e w h : ℝ) (ps : List Particle) (n : ℕ) :
    prefixSteps g e w h ps (n + 1) = stepBody g e w h (prefixSteps g e w h ps n) n := by
  unfold prefixSteps
  rw [List.range_succ, List.foldl_append, List.foldl_cons, List.foldl_nil]

theorem prefixSteps_getElem_stable (g e w h : ℝ) (ps : List Particle) (i n : ℕ)
    (hn : i < n) :
    (prefixSteps g e w h ps n)[i]? = (prefixSteps g e w h ps (i + 1))[i]? := by
  induction n with
  | zero => omega
  | succ n ih =>
      rcases Nat.lt_or_ge i n with h1 | h1
      · rw [prefixSteps_succ]
        have hne : n ≠ i := by omega
        unfold stepBody
        split
        · rw [List.getElem?_set_ne hne]
          exact ih h1
        · exact ih h1
      · have hni : n = i := by omega
        subst hni
        rfl

/-- After a whole tick, the body at a valid index `i` is exactly the
wall-handled integration of the body the sequential loop saw at index `i`. -/
theorem nbodyStep_getElem (g e w h : ℝ) (ps : List Particle) (i : ℕ) (p : Particle)
    (hi : i < ps.length)
    (hp : (prefixSteps g e w h ps i)[i]? = some p) :
    (nbodyStep g e w h ps)[i]?
      = some (wallBody w h (integrateBody g e (prefixSteps g e w h ps i) i p)) := by
  unfold nbodyStep
  rw [prefixSteps_getElem_stable g e w h ps i ps.length hi, prefixSteps_succ]
  simp only [stepBody, hp]
  exact List.getElem?_set_eq_of_lt _ (by rw [length_prefixSteps]; exact hi)

/-! ### Claims about the clock and the single-body integrators -/

/-- C1 (counterexample): the delta-time fed to the pendulum integrator is not
clamped to any finite upper bound.  A one-hour timestamp gap (for example
after tab suspension) is applied in full as a single integration step, and no
bound on the applied delta exists at all. -/
theorem claim1_counterexample :
    (pendAnimate 9.81 2 3600001 ⟨0, 0, 0, 1⟩).time = 3600
    ∧ ¬ ∃ B : ℝ, ∀ ts : ℝ, (pendAnimate 9.81 2 ts ⟨0, 0, 0, 1⟩).time ≤ B := by
  constructor
  · norm_num [pendAnimate]
  · rintro ⟨B, hB⟩
    have h := hB (1000 * B + 1001)
    norm_num [pendAnimate] at h
    linarith

/-- C1 (amended): for a running integrator and monotone timestamps the
delta-time fed to an integration step is nonnegative, but it is not clamped:
the pendulum advances its simulated time by exactly the full timestamp gap
`(ts - lastUpdateTime) / 1000`, and the MRU loop likewise advances elapsed
time by the full gap (subject only to the end-of-run clamp at `totalTime`). -/
theorem claim1_amended (gravity len totalTime ts ts2 elapsed last : ℝ)
    (s : PendState) (hrun : 0 < s.lastUpdateTime)
    (hmono : s.lastUpdateTime ≤ ts) (hmono2 : last ≤ ts2) :
    ((pendAnimate gravity len ts s).time = s.time + (ts - s.lastUpdateTime) / 1000
      ∧ 0 ≤ (ts - s.lastUpdateTime) / 1000)
    ∧ ((mruAnimate totalTime ts2 elapsed (some last)).1
          = (if totalTime ≤ elapsed + (ts2 - last) / 1000 then totalTime
              else elapsed + (ts2 - last) / 1000)
        ∧ 0 ≤ (ts2 - last) / 1000) := by
  refine ⟨⟨?_, div_nonneg (by linarith) (by norm_num)⟩, ?_,
    div_nonneg (by linarith) (by norm_num)⟩
  · simp only [pendAnimate, if_pos hrun]
  · simp only [mruAnimate, Option.getD_some]

/-- C1 (witness): the amended statement at a concrete running state and a
concrete pair of monotone timestamps. -/
theorem claim1_witness :
    (0 : ℝ) < (PendState.mk 0 0 0 1).lastUpdateTime
    ∧ (((pendAnimate 9.81 2 1001 (PendState.mk 0 0 0 1)).time
          = (PendState.mk 0 0 0 1).time
            + (1001 - (PendState.mk 0 0 0 1).lastUpdateTime) / 1000
        ∧ 0 ≤ ((1001 : ℝ) - (PendState.mk 0 0 0 1).lastUpdateTime) / 1000)
      ∧ ((mruAnimate 10 5 0 (some 5)).1
            = (if (10 : ℝ) ≤ 0 + ((5 : ℝ) - 5) / 1000 then 10
                else 0 + ((5 : ℝ) - 5) / 1000)
          ∧ 0 ≤ ((5 : ℝ) - 5) / 1000)) :=
  ⟨by norm_num,
    claim1_amended 9.81 2 10 1001 5 0 5 (PendState.mk 0 0 0 1)
      (by norm_num) (by norm_num) (by norm_num)⟩

/-- C2 (counterexample): a zero-delta pendulum step is not the identity on
the angular velocity: the unconditional damping factor 0.999 is applied even
when the timestamp gap is zero, so an angular velocity of 1 becomes 0.999. -/
theorem claim2_counterexample :
    (pendAnimate 9.81 2 1000 ⟨0, 1, 0, 1000⟩).angularVelocity = 0.999
    ∧ (0.999 : ℝ) ≠ 1 := by
  constructor
  · norm_num [pendAnimate]
  · norm_num

/-- C2 (amended): a zero-delta step (timestamp equal to the recorded
baseline) leaves the pendulum angle and time and the incline position,
velocity and time unchanged, but multiplies the pendulum's angular velocity
by the damping factor 0.999, so the angular velocity is unchanged only when
it is zero. -/
theorem claim2_amended (gravity len accel ts : ℝ) (s : PendState)
    (u : InclineState) (hs : s.lastUpdateTime = ts) (hst : 0 < ts)
    (hu : u.lastUpdateTime = ts) (hup : u.position ≤ 15) :
    (pendAnimate gravity len ts s).angle = s.angle
    ∧ (pendAnimate gravity len ts s).angularVelocity = s.angularVelocity * 0.999
    ∧ (pendAnimate gravity len ts s).time = s.time
    ∧ (inclineAnimate accel ts u).position = u.position
    ∧ (inclineAnimate accel ts u).velocity = u.velocity
    ∧ (inclineAnimate accel ts u).time = u.time := by
  have hrun : 0 < s.lastUpdateTime := hs ▸ hst
  have hurun : 0 < u.lastUpdateTime := hu ▸ hst
  simp only [pendAnimate, inclineAnimate, if_pos hrun, if_pos hurun]
  simp only [hs, hu, sub_self, zero_div, mul_zero, add_zero]
  rcases eq_or_lt_of_le hup with h | h
  · simp [h]
  · simp [if_neg (not_le.mpr h)]

/-- C2 (witness): the amended statement at a concrete zero-delta step. -/
theorem claim2_witness :
    (PendState.mk 1 2 3 1000).lastUpdateTime = 1000 ∧ (0 : ℝ) < 1000
    ∧ (InclineState.mk 4 5 6 1000).lastUpdateTime = 1000
    ∧ (InclineState.mk 4 5 6 1000).position ≤ 15
    ∧ ((pendAnimate 9.81 2 1000 (PendState.mk 1 2 3 1000)).angle
        = (PendState.mk 1 2 3 1000).angle
      ∧ (pendAnimate 9.81 2 1000 (PendState.mk 1 2 3 1000)).angularVelocity
          = (PendState.mk 1 2 3 1000).angularVelocity * 0.999
      ∧ (pendAnimate 9.81 2 1000 (PendState.mk 1 2 3 1000)).time
          = (PendState.mk 1 2 3 1000).time
      ∧ (inclineAnimate 3 1000 (InclineState.mk 4 5 6 1000)).position
          = (InclineState.mk 4 5 6 1000).position
      ∧ (inclineAnimate 3 1000 (InclineState.mk 4 5 6 1000)).velocity
          = (InclineState.mk 4 5 6 1000).velocity
      ∧ (inclineAnimate 3 1000 (InclineState.mk 4 5 6 1000)).time
          = (InclineState.mk 4 5 6 1000).time) :=
  ⟨by norm_num, by norm_num, by norm_num, by norm_num,
    claim2_amended 9.81 2 3 1000 (PendState.mk 1 2 3 1000)
      (InclineState.mk 4 5 6 1000) (by norm_num) (by norm_num) (by norm_num)
      (by norm_num)⟩

/-- C4 (counterexample): the pendulum does not clear its baseline on the
Idle-to-Running transition; it records `performance.now()` instead, so the
first tick after a start integrates the start-to-first-frame gap.  Starting
at wall-clock time 1000 with the first frame at 1016 advances simulated time
by 0.016, not 0. -/
theorem claim4_counterexample :
    (pendAnimate 9.81 2 1016 (pendStartRun 1000 (resetPendulumState 30))).time
      = 16 / 1000
    ∧ ((16 : ℝ) / 1000 ≠ 0) := by
  constructor
  · norm_num [pendAnimate, pendStartRun, resetPendulumState]
  · norm_num

/-- C4 (amended): the MRU and MRUV loops clear their baseline on start, so
their first tick computes a delta of exactly 0 and leaves the elapsed time
unchanged (up to the end-of-run clamp); the pendulum instead sets its
baseline to the start wall-clock time `now`, so its first tick integrates
`(ts - now) / 1000` rather than 0. -/
theorem claim4_amended (gravity len now ts totalTime ts2 elapsed : ℝ)
    (s : PendState) (hnow : 0 < now) :
    (mruAnimate totalTime ts2 elapsed none).1
        = (if totalTime ≤ elapsed then totalTime else elapsed)
    ∧ (mruAnimate totalTime ts2 elapsed none).2 = some ts2
    ∧ (mruvAnimate totalTime ts2 elapsed none).1
        = (if totalTime ≤ elapsed then totalTime else elapsed)
    ∧ (pendAnimate gravity len ts (pendStartRun now s)).time
        = s.time + (ts - now) / 1000 := by
  refine ⟨?_, ?_, ?_, ?_⟩
  · norm_num [mruAnimate]
  · norm_num [mruAnimate]
  · norm_num [mruvAnimate]
  · simp only [pendAnimate, pendStartRun, if_pos hnow]

/-- C4 (witness): the amended statement at a concrete start. -/
theorem claim4_witness :
    (0 : ℝ) < 1000
    ∧ ((mruAnimate 10 5 3 none).1 = (if (10 : ℝ) ≤ 3 then 10 else 3)
      ∧ (mruAnimate 10 5 3 none).2 = some 5
      ∧ (mruvAnimate 10 5 3 none).1 = (if (10 : ℝ) ≤ 3 then 10 else 3)
      ∧ (pendAnimate 9.81 2 1016 (pendStartRun 1000 (PendState.mk 1 2 3 0))).time
          = (PendState.mk 1 2 3 0).time + ((1016 : ℝ) - 1000) / 1000) :=
  ⟨by norm_num,
    claim4_amended 9.81 2 1000 1016 10 5 3 (PendState.mk 1 2 3 0) (by norm_num)⟩

/-- C5 (counterexample): the MRUV demo does not apply semi-implicit Euler
per tick.  From rest state (elapsed 0, position 0, velocity 5, acceleration
2), a tick of one second moves the closed-form position to 6, while a
semi-implicit Euler step from the same state yields 7. -/
theorem claim5_counterexample :
    (mruvAnimate 10 1000 0 (some 0)).1 = 1
    ∧ mruvPosition 0 5 2 ((mruvAnimate 10 1000 0 (some 0)).1) = 6
    ∧ (specSemiImplicitEuler 2 1 (mruvPosition 0 5 2 0) (mruvVelocity 5 2 0)).1 = 7
    ∧ (6 : ℝ) ≠ 7 := by
  norm_num [mruvAnimate, mruvPosition, mruvVelocity, specSemiImplicitEuler]

/-- C5 (amended): per tick, the pendulum applies semi-implicit Euler with its
damping folded into the velocity update (velocity from acceleration first,
then damping, then position from the updated velocity, then time); the
incline applies semi-implicit Euler exactly (below the track end); the MRU
closed-form tick coincides with a semi-implicit Euler step because its
acceleration is zero; the MRUV closed-form tick differs from a semi-implicit
Euler step by `a * dt^2 / 2`. -/
theorem claim5_amended (gravity len accel ts dt s0 v0 a t : ℝ) (s : PendState)
    (u : InclineState) (hs : 0 < s.lastUpdateTime) (hu : 0 < u.lastUpdateTime)
    (hclamp :
      u.position
          + (u.velocity + accel * ((ts - u.lastUpdateTime) / 1000))
            * ((ts - u.lastUpdateTime) / 1000) < 15) :
    ((pendAnimate gravity len ts s).angularVelocity
        = (s.angularVelocity
            + (-(gravity / len) * s.angle) * ((ts - s.lastUpdateTime) / 1000))
          * 0.999
      ∧ (pendAnimate gravity len ts s).angle
          = s.angle
            + (pendAnimate gravity len ts s).angularVelocity
              * ((ts - s.lastUpdateTime) / 1000)
      ∧ (pendAnimate gravity len ts s).time
          = s.time + (ts - s.lastUpdateTime) / 1000)
    ∧ (((inclineAnimate accel ts u).position, (inclineAnimate accel ts u).velocity)
          = specSemiImplicitEuler accel ((ts - u.lastUpdateTime) / 1000)
              u.position u.velocity
        ∧ (inclineAnimate accel ts u).time = u.time + (ts - u.lastUpdateTime) / 1000)
    ∧ mruPosition s0 v0 (t + dt)
        = (specSemiImplicitEuler 0 dt (mruPosition s0 v0 t) v0).1
    ∧ mruvPosition s0 v0 a (t + dt)
        = (specSemiImplicitEuler a dt (mruvPosition s0 v0 a t) (mruvVelocity v0 a t)).1
          - a * dt ^ 2 / 2 := by
  refine ⟨⟨?_, ?_, ?_⟩, ⟨?_, ?_⟩, ?_, ?_⟩
  · simp only [pendAnimate, if_pos hs]
  · simp only [pendAnimate, if_pos hs]
  · simp only [pendAnimate, if_pos hs]
  · simp only [inclineAnimate, if_pos hu, specSemiImplicitEuler]
    rw [if_neg (not_le.mpr hclamp)]
  · simp only [inclineAnimate, if_pos hu]
  · simp only [mruPosition, specSemiImplicitEuler]
    ring
  · simp only [mruvPosition, mruvVelocity, specSemiImplicitEuler]
    ring

/-- C5 (witness): the amended statement at a concrete running state. -/
theorem claim5_witness :
    (0 : ℝ) < (PendState.mk 1 2 3 1000).lastUpdateTime
    ∧ (0 : ℝ) < (InclineState.mk 0 1 0 1000).lastUpdateTime
    ∧ (InclineState.mk 0 1 0 1000).position
        + ((InclineState.mk 0 1 0 1000).velocity
            + 3 * ((1500 - (InclineState.mk 0 1 0 1000).lastUpdateTime) / 1000))
          * ((1500 - (InclineState.mk 0 1 0 1000).lastUpdateTime) / 1000) < 15
    ∧ (((pendAnimate 9.81 2 1500 (PendState.mk 1 2 3 1000)).angularVelocity
          = ((PendState.mk 1 2 3 1000).angularVelocity
              + (-(9.81 / 2) * (PendState.mk 1 2 3 1000).angle)
                * ((1500 - (PendState.mk 1 2 3 1000).lastUpdateTime) / 1000))
            * 0.999
        ∧ (pendAnimate 9.81 2 1500 (PendState.mk 1 2 3 1000)).angle
            = (PendState.mk 1 2 3 1000).angle
              + (pendAnimate 9.81 2 1500 (PendState.mk 1 2 3 1000)).angularVelocity
                * ((1500 - (PendState.mk 1 2 3 1000).lastUpdateTime) / 1000)
        ∧ (pendAnimate 9.81 2 1500 (PendState.mk 1 2 3 1000)).time
            = (PendState.mk 1 2 3 1000).time
              + ((1500 : ℝ) - (PendState.mk 1 2 3 1000).lastUpdateTime) / 1000)
      ∧ (((inclineAnimate 3 1500 (InclineState.mk 0 1 0 1000)).position,
            (inclineAnimate 3 1500 (InclineState.mk 0 1 0 1000)).velocity)
            = specSemiImplicitEuler 3
                ((1500 - (InclineState.mk 0 1 0 1000).lastUpdateTime) / 1000)
                (InclineState.mk 0 1 0 1000).position
                (InclineState.mk 0 1 0 1000).velocity
          ∧ (inclineAnimate 3 1500 (InclineState.mk 0 1 0 1000)).time
              = (InclineState.mk 0 1 0 1000).time
                + ((1500 : ℝ) - (InclineState.mk 0 1 0 1000).lastUpdateTime) / 1000)
      ∧ mruPosition 7 4 (2 + 5) = (specSemiImplicitEuler 0 5 (mruPosition 7 4 2) 4).1
      ∧ mruvPosition 7 4 3 (2 + 5)
          = (specSemiImplicitEuler 3 5 (mruvPosition 7 4 3 2) (mruvVelocity 4 3 2)).1
            - 3 * 5 ^ 2 / 2) :=
  ⟨by norm_num, by norm_num, by norm_num,
    claim5_amended 9.81 2 3 1500 5 7 4 3 2 (PendState.mk 1 2 3 1000)
      (InclineState.mk 0 1 0 1000) (by norm_num) (by norm_num) (by norm_num)⟩

/-! ### The N-body tick on a two-particle array -/

theorem nbodyStep_pair (g e w h : ℝ) (p0 p1 : Particle) :
    nbodyStep g e w h [p0, p1]
      = [wallBody w h (integrateBody g e [p0, p1] 0 p0),
         wallBody w h (integrateBody g e
           [wallBody w h (integrateBody g e [p0, p1] 0 p0), p1] 1 p1)] := rfl

theorem netForceOn_pair_left (g e : ℝ) (p p0 p1 : Particle) :
    netForceOn g e p 0 [p0, p1] = pairForce g e p p1 := by
  show (0 + (pairForce g e p p1).1, 0 + (pairForce g e p p1).2) = pairForce g e p p1
  simp

theorem netForceOn_pair_right (g e : ℝ) (p p0 p1 : Particle) :
    netForceOn g e p 1 [p0, p1] = pairForce g e p p0 := by
  show (0 + (pairForce g e p p0).1, 0 + (pairForce g e p p0).2) = pairForce g e p p0
  simp

/-- The pairwise force between two particles on a horizontal line when the
other particle lies more than the threshold to the right. -/
theorem pairForce_right (g e : ℝ) (p q : Particle) (hy : q.y = p.y)
    (hd : 2 < q.x - p.x) :
    pairForce g e p q
      = (0.5 * g * p.mass * q.mass / ((q.x - p.x) * (q.x - p.x))
          - 10 * e * p.charge * q.charge / ((q.x - p.x) * (q.x - p.x)), 0) := by
  have hd0 : (0 : ℝ) < q.x - p.x := by linarith
  have hne := hd0.ne'
  have hy0 : q.y - p.y = 0 := by rw [hy, sub_self]
  have hss : Real.sqrt ((q.x - p.x) * (q.x - p.x) + 0 * 0) = q.x - p.x := by
    rw [show (q.x - p.x) * (q.x - p.x) + 0 * 0 = (q.x - p.x) ^ 2 from by ring]
    exact Real.sqrt_sq hd0.le
  simp only [pairForce, hy0]
  rw [hss, if_pos hd]
  rw [Prod.ext_iff]
  constructor
  · field_simp
  · simp

/-- The pairwise force between two particles on a horizontal line when the
other particle lies more than the threshold to the left. -/
theorem pairForce_left (g e : ℝ) (p q : Particle) (hy : q.y = p.y)
    (hd : q.x - p.x < -2) :
    pairForce g e p q
      = (10 * e * p.charge * q.charge / ((q.x - p.x) * (q.x - p.x))
          - 0.5 * g * p.mass * q.mass / ((q.x - p.x) * (q.x - p.x)), 0) := by
  have hd0 : (0 : ℝ) < p.x - q.x := by linarith
  have hne := hd0.ne'
  have hne2 : q.x - p.x ≠ 0 := fun h0 => hne (by linarith)
  have hy0 : q.y - p.y = 0 := by rw [hy, sub_self]
  have hss : Real.sqrt ((q.x - p.x) * (q.x - p.x) + 0 * 0) = p.x - q.x := by
    rw [show (q.x - p.x) * (q.x - p.x) + 0 * 0 = (p.x - q.x) ^ 2 from by ring]
    exact Real.sqrt_sq hd0.le
  have hgt : (2 : ℝ) < p.x - q.x := by linarith
  simp only [pairForce, hy0]
  rw [hss, if_pos hgt]
  rw [Prod.ext_iff]
  constructor
  · field_simp
    ring
  · simp

/-- The singularity guard: the whole pairwise contribution is dropped when
the separation is not above the threshold. -/
theorem pairForce_guard (g e : ℝ) (p q : Particle)
    (hclose : Real.sqrt ((q.x - p.x) * (q.x - p.x) + (q.y - p.y) * (q.y - p.y)) ≤ 2) :
    pairForce g e p q = (0, 0) := by
  simp only [pairForce]
  rw [if_neg (not_lt.mpr hclose)]

/-! ### Claims about the N-body engine -/

/-- C6: the N-body tick is a pure function of the particle array and the
force coefficients (with the fixed canvas dimensions): it consults no
timestamp, so equal particle arrays under equal coefficients map to equal
successor arrays; and for every body the loop adds the full acceleration
(net force over mass, with no time factor) to the velocity and the full
updated velocity to the position. -/
theorem claim6 (g e w h : ℝ) (ps : List Particle) (i : ℕ) (p : Particle)
    (hi : i < ps.length)
    (hp : (prefixSteps g e w h ps i)[i]? = some p) :
    (nbodyStep g e w h ps)[i]?
        = some (wallBody w h (integrateBody g e (prefixSteps g e w h ps i) i p))
    ∧ (integrateBody g e (prefixSteps g e w h ps i) i p).vx
        = p.vx + (netForceOn g e p i (prefixSteps g e w h ps i)).1 / p.mass
    ∧ (integrateBody g e (prefixSteps g e w h ps i) i p).vy
        = p.vy + (netForceOn g e p i (prefixSteps g e w h ps i)).2 / p.mass
    ∧ (integrateBody g e (prefixSteps g e w h ps i) i p).x
        = p.x + (integrateBody g e (prefixSteps g e w h ps i) i p).vx
    ∧ (integrateBody g e (prefixSteps g e w h ps i) i p).y
        = p.y + (integrateBody g e (prefixSteps g e w h ps i) i p).vy
    ∧ ∀ qs : List Particle, qs = ps →
        nbodyStep g e w h qs = nbodyStep g e w h ps :=
  ⟨nbodyStep_getElem g e w h ps i p hi hp, rfl, rfl, rfl, rfl,
    fun _ hqs => by rw [hqs]⟩

/-- C6 (witness): the statement at a concrete one-particle array. -/
theorem claim6_witness :
    0 < ([Particle.mk 1 1 (-10) 0 2 1 0 "n"] : List Particle).length
    ∧ (prefixSteps 0 0 100 100 [Particle.mk 1 1 (-10) 0 2 1 0 "n"] 0)[0]?
        = some (Particle.mk 1 1 (-10) 0 2 1 0 "n")
    ∧ ((nbodyStep 0 0 100 100 [Particle.mk 1 1 (-10) 0 2 1 0 "n"])[0]?
          = some (wallBody 100 100
              (integrateBody 0 0
                (prefixSteps 0 0 100 100 [Particle.mk 1 1 (-10) 0 2 1 0 "n"] 0) 0
                (Particle.mk 1 1 (-10) 0 2 1 0 "n")))
      ∧ (integrateBody 0 0
            (prefixSteps 0 0 100 100 [Particle.mk 1 1 (-10) 0 2 1 0 "n"] 0) 0
            (Particle.mk 1 1 (-10) 0 2 1 0 "n")).vx
          = (Particle.mk 1 1 (-10) 0 2 1 0 "n").vx
            + (netForceOn 0 0 (Particle.mk 1 1 (-10) 0 2 1 0 "n") 0
                (prefixSteps 0 0 100 100 [Particle.mk 1 1 (-10) 0 2 1 0 "n"] 0)).1
              / (Particle.mk 1 1 (-10) 0 2 1 0 "n").mass
      ∧ (integrateBody 0 0
            (prefixSteps 0 0 100 100 [Particle.mk 1 1 (-10) 0 2 1 0 "n"] 0) 0
            (Particle.mk 1 1 (-10) 0 2 1 0 "n")).vy
          = (Particle.mk 1 1 (-10) 0 2 1 0 "n").vy
            + (netForceOn 0 0 (Particle.mk 1 1 (-10) 0 2 1 0 "n") 0
                (prefixSteps 0 0 100 100 [Particle.mk 1 1 (-10) 0 2 1 0 "n"] 0)).2
              / (Particle.mk 1 1 (-10) 0 2 1 0 "n").mass
      ∧ (integrateBody 0 0
            (prefixSteps 0 0 100 100 [Particle.mk 1 1 (-10) 0 2 1 0 "n"] 0) 0
            (Particle.mk 1 1 (-10) 0 2 1 0 "n")).x
          = (Particle.mk 1 1 (-10) 0 2 1 0 "n").x
            + (integrateBody 0 0
                (prefixSteps 0 0 100 100 [Particle.mk 1 1 (-10) 0 2 1 0 "n"] 0) 0
                (Particle.mk 1 1 (-10) 0 2 1 0 "n")).vx
      ∧ (integrateBody 0 0
            (prefixSteps 0 0 100 100 [Particle.mk 1 1 (-10) 0 2 1 0 "n"] 0) 0
            (Particle.mk 1 1 (-10) 0 2 1 0 "n")).y
          = (Particle.mk 1 1 (-10) 0 2 1 0 "n").y
            + (integrateBody 0 0
                (prefixSteps 0 0 100 100 [Particle.mk 1 1 (-10) 0 2 1 0 "n"] 0) 0
                (Particle.mk 1 1 (-10) 0 2 1 0 "n")).vy
      ∧ ∀ qs : List Particle, qs = [Particle.mk 1 1 (-10) 0 2 1 0 "n"] →
          nbodyStep 0 0 100 100 qs
            = nbodyStep 0 0 100 100 [Particle.mk 1 1 (-10) 0 2 1 0 "n"]) :=
  ⟨by norm_num, rfl,
    claim6 0 0 100 100 [Particle.mk 1 1 (-10) 0 2 1 0 "n"] 0
      (Particle.mk 1 1 (-10) 0 2 1 0 "n") (by norm_num) rfl⟩

/-- C8: on every N-body tick and for every body, when the integrated position
exits the horizontal or vertical range the corresponding velocity component
is multiplied by -0.8 (sign flip with restitution 0.8 < 1, and left unchanged
otherwise), and the body stored after the tick has its position clamped into
the domain, so it lies within the rectangle `[0, w] × [0, h]`. -/
theorem claim8 (g e w h : ℝ) (ps : List Particle) (i : ℕ) (p : Particle)
    (hw : 0 ≤ w) (hh : 0 ≤ h) (hi : i < ps.length)
    (hp : (prefixSteps g e w h ps i)[i]? = some p) :
    ∃ q b, q = integrateBody g e (prefixSteps g e w h ps i) i p
      ∧ b = wallBody w h q
      ∧ (nbodyStep g e w h ps)[i]? = some b
      ∧ 0 ≤ b.x ∧ b.x ≤ w ∧ 0 ≤ b.y ∧ b.y ≤ h
      ∧ ((q.x < 0 ∨ w < q.x) → b.vx = q.vx * (-0.8))
      ∧ (¬(q.x < 0 ∨ w < q.x) → b.vx = q.vx)
      ∧ ((q.y < 0 ∨ h < q.y) → b.vy = q.vy * (-0.8))
      ∧ (¬(q.y < 0 ∨ h < q.y) → b.vy = q.vy) := by
  refine ⟨integrateBody g e (prefixSteps g e w h ps i) i p,
    wallBody w h (integrateBody g e (prefixSteps g e w h ps i) i p),
    rfl, rfl, nbodyStep_getElem g e w h ps i p hi hp, ?_, ?_, ?_, ?_, ?_, ?_, ?_, ?_⟩
  · simp only [wallBody]
    exact le_max_left _ _
  · simp only [wallBody]
    exact max_le hw (min_le_left _ _)
  · simp only [wallBody]
    exact le_max_left _ _
  · simp only [wallBody]
    exact max_le hh (min_le_left _ _)
  · intro hcond
    simp only [wallBody, if_pos hcond]
  · intro hcond
    simp only [wallBody, if_neg hcond]
  · intro hcond
    simp only [wallBody, if_pos hcond]
  · intro hcond
    simp only [wallBody, if_neg hcond]

/-- C8 (witness): the statement at a concrete one-particle array whose
integrated position leaves the domain on the left. -/
theorem claim8_witness :
    (0 : ℝ) ≤ 100 ∧ (0 : ℝ) ≤ 100
    ∧ 0 < ([Particle.mk 1 1 (-10) 0 2 1 0 "w"] : List Particle).length
    ∧ (prefixSteps 0 0 100 100 [Particle.mk 1 1 (-10) 0 2 1 0 "w"] 0)[0]?
        = some (Particle.mk 1 1 (-10) 0 2 1 0 "w")
    ∧ (∃ q b,
        q = integrateBody 0 0
              (prefixSteps 0 0 100 100 [Particle.mk 1 1 (-10) 0 2 1 0 "w"] 0) 0
              (Particle.mk 1 1 (-10) 0 2 1 0 "w")
        ∧ b = wallBody 100 100 q
        ∧ (nbodyStep 0 0 100 100 [Particle.mk 1 1 (-10) 0 2 1 0 "w"])[0]? = some b
        ∧ 0 ≤ b.x ∧ b.x ≤ 100 ∧ 0 ≤ b.y ∧ b.y ≤ 100
        ∧ ((q.x < 0 ∨ 100 < q.x) → b.vx = q.vx * (-0.8))
        ∧ (¬(q.x < 0 ∨ 100 < q.x) → b.vx = q.vx)
        ∧ ((q.y < 0 ∨ 100 < q.y) → b.vy = q.vy * (-0.8))
        ∧ (¬(q.y < 0 ∨ 100 < q.y) → b.vy = q.vy)) :=
  ⟨by norm_num, by norm_num, by norm_num, rfl,
    claim8 0 0 100 100 [Particle.mk 1 1 (-10) 0 2 1 0 "w"] 0
      (Particle.mk 1 1 (-10) 0 2 1 0 "w") (by norm_num) (by norm_num)
      (by norm_num) rfl⟩

/-- C9 (counterexample): two bodies of equal mass 1 and opposite unit charge
at rest on a horizontal line, separated by 5/2 (above the minimum-distance
threshold 2), with gravity coefficient 0 and electrostatic coefficient 1.
Body 0 accelerates toward body 1 (vx becomes 8/5), but because the loop
updates the array in place, body 1's force is computed against body 0's new
position: the separation has dropped to 9/10 ≤ 2, the guard fires, and body 1
receives zero acceleration — its velocity stays 0 instead of pointing toward
the other body. -/
theorem claim9_counterexample :
    2 < (Particle.mk (5 / 2 : ℝ) 50 0 0 2 1 (-1) "#f43f5e").x
        - (Particle.mk (0 : ℝ) 50 0 0 3 1 1 "#38bdf8").x
    ∧ ((nbodyStep 0 1 100 100
          [Particle.mk (0 : ℝ) 50 0 0 3 1 1 "#38bdf8",
            Particle.mk (5 / 2 : ℝ) 50 0 0 2 1 (-1) "#f43f5e"])[1]?).map Particle.vx
        = some 0
    ∧ ((nbodyStep 0 1 100 100
          [Particle.mk (0 : ℝ) 50 0 0 3 1 1 "#38bdf8",
            Particle.mk (5 / 2 : ℝ) 50 0 0 2 1 (-1) "#f43f5e"])[0]?).map Particle.vx
        = some (8 / 5) := by
  have hPF : pairForce 0 1 (Particle.mk (0 : ℝ) 50 0 0 3 1 1 "#38bdf8")
      (Particle.mk (5 / 2 : ℝ) 50 0 0 2 1 (-1) "#f43f5e") = (8 / 5, 0) := by
    rw [pairForce_right 0 1 (Particle.mk (0 : ℝ) 50 0 0 3 1 1 "#38bdf8")
      (Particle.mk (5 / 2 : ℝ) 50 0 0 2 1 (-1) "#f43f5e") rfl
      (by show (2 : ℝ) < 5 / 2 - 0; norm_num)]
    rw [Prod.ext_iff]
    refine ⟨?_, rfl⟩
    show 0.5 * 0 * 1 * 1 / (((5 : ℝ) / 2 - 0) * ((5 : ℝ) / 2 - 0))
        - 10 * 1 * 1 * (-1) / (((5 : ℝ) / 2 - 0) * ((5 : ℝ) / 2 - 0)) = 8 / 5
    norm_num
  have hI0 : integrateBody 0 1
      [Particle.mk (0 : ℝ) 50 0 0 3 1 1 "#38bdf8",
        Particle.mk (5 / 2 : ℝ) 50 0 0 2 1 (-1) "#f43f5e"] 0
      (Particle.mk (0 : ℝ) 50 0 0 3 1 1 "#38bdf8")
      = Particle.mk (8 / 5 : ℝ) 50 (8 / 5) 0 3 1 1 "#38bdf8" := by
    simp only [integrateBody, netForceOn_pair_left, hPF, Particle.mk.injEq]
    norm_num
  have hW0 : wallBody 100 100 (Particle.mk (8 / 5 : ℝ) 50 (8 / 5) 0 3 1 1 "#38bdf8")
      = Particle.mk (8 / 5 : ℝ) 50 (8 / 5) 0 3 1 1 "#38bdf8" := by
    have hx1 : ¬((8 / 5 : ℝ) < 0 ∨ (100 : ℝ) < 8 / 5) := by norm_num
    have hy1 : ¬((50 : ℝ) < 0 ∨ (100 : ℝ) < 50) := by norm_num
    simp only [wallBody, if_neg hx1, if_neg hy1, Particle.mk.injEq]
    norm_num [min_def, max_def]
  have hguard : pairForce 0 1 (Particle.mk (5 / 2 : ℝ) 50 0 0 2 1 (-1) "#f43f5e")
      (Particle.mk (8 / 5 : ℝ) 50 (8 / 5) 0 3 1 1 "#38bdf8") = (0, 0) := by
    apply pairForce_guard
    show Real.sqrt (((8 / 5 : ℝ) - 5 / 2) * ((8 / 5 : ℝ) - 5 / 2)
        + ((50 : ℝ) - 50) * ((50 : ℝ) - 50)) ≤ 2
    rw [show ((8 / 5 : ℝ) - 5 / 2) * ((8 / 5 : ℝ) - 5 / 2)
        + ((50 : ℝ) - 50) * ((50 : ℝ) - 50) = ((9 : ℝ) / 10) ^ 2 from by norm_num]
    rw [Real.sqrt_sq (by norm_num)]
    norm_num
  have hI1 : integrateBody 0 1
      [Particle.mk (8 / 5 : ℝ) 50 (8 / 5) 0 3 1 1 "#38bdf8",
        Particle.mk (5 / 2 : ℝ) 50 0 0 2 1 (-1) "#f43f5e"] 1
      (Particle.mk (5 / 2 : ℝ) 50 0 0 2 1 (-1) "#f43f5e")
      = Particle.mk (5 / 2 : ℝ) 50 0 0 2 1 (-1) "#f43f5e" := by
    simp only [integrateBody, netForceOn_pair_right, hguard, Particle.mk.injEq]
    norm_num
  have hW1 : wallBody 100 100 (Particle.mk (5 / 2 : ℝ) 50 0 0 2 1 (-1) "#f43f5e")
      = Particle.mk (5 / 2 : ℝ) 50 0 0 2 1 (-1) "#f43f5e" := by
    have hx1 : ¬((5 / 2 : ℝ) < 0 ∨ (100 : ℝ) < 5 / 2) := by norm_num
    have hy1 : ¬((50 : ℝ) < 0 ∨ (100 : ℝ) < 50) := by norm_num
    simp only [wallBody, if_neg hx1, if_neg hy1, Particle.mk.injEq]
    norm_num [min_def, max_def]
  refine ⟨by show (2 : ℝ) < 5 / 2 - 0; norm_num, ?_, ?_⟩
  · rw [nbodyStep_pair, hI0, hW0, hI1, hW1]
    rfl
  · rw [nbodyStep_pair, hI0, hW0, hI1, hW1]
    rfl

/-- C9 (amended): in the engine's sequential in-place tick, the
first-processed body always receives an acceleration toward the other body
when the charges are opposite and away from it when they are alike (gravity
coefficient 0, electrostatic coefficient positive, bodies at rest on a
horizontal line separated by `d` above the threshold).  The second body's
force is computed against the first body's already-updated state, so it
receives an acceleration toward (respectively away from) the first body's
new position provided that position stayed inside the domain and the new
separation is still above the threshold — which the stated bounds on
`10 e / (d² m)` guarantee. -/
theorem claim9_amended (e m d x0 y0 w h q0 q1 r0 r1 : ℝ) (c0 c1 : String)
    (hm : 0 < m) (he : 0 < e) (hd : 2 < d)
    (hy0 : 0 ≤ y0) (hyh : y0 ≤ h)
    (hq : q0 * q1 = -1 ∨ q0 * q1 = 1)
    (hxA : 10 * e / (d ^ 2 * m) ≤ x0)
    (hxw : x0 + 10 * e / (d ^ 2 * m) ≤ w)
    (hsep : 2 + 10 * e / (d ^ 2 * m) < d) :
    ∃ b0, (nbodyStep 0 e w h
        [Particle.mk x0 y0 0 0 r0 m q0 c0,
          Particle.mk (x0 + d) y0 0 0 r1 m q1 c1])[0]? = some b0
      ∧ b0.vy = 0
      ∧ (q0 * q1 = -1 → 0 < b0.vx
          ∧ (netForceOn 0 e (Particle.mk (x0 + d) y0 0 0 r1 m q1 c1) 1
              [b0, Particle.mk (x0 + d) y0 0 0 r1 m q1 c1]).1 / m < 0)
      ∧ (q0 * q1 = 1 → b0.vx < 0
          ∧ 0 < (netForceOn 0 e (Particle.mk (x0 + d) y0 0 0 r1 m q1 c1) 1
              [b0, Particle.mk (x0 + d) y0 0 0 r1 m q1 c1]).1 / m) := by
  have hd0 : (0 : ℝ) < d := by linarith
  have hdne := hd0.ne'
  have hmne := hm.ne'
  have hApos : 0 < 10 * e / (d ^ 2 * m) := by positivity
  have hgt : (2 : ℝ) < (Particle.mk (x0 + d) y0 0 0 r1 m q1 c1).x
      - (Particle.mk x0 y0 0 0 r0 m q0 c0).x := by
    show (2 : ℝ) < x0 + d - x0
    linarith
  have hPF : pairForce 0 e (Particle.mk x0 y0 0 0 r0 m q0 c0)
      (Particle.mk (x0 + d) y0 0 0 r1 m q1 c1)
      = (-(10 * e * q0 * q1) / (d * d), 0) := by
    rw [pairForce_right 0 e (Particle.mk x0 y0 0 0 r0 m q0 c0)
      (Particle.mk (x0 + d) y0 0 0 r1 m q1 c1) rfl hgt]
    rw [Prod.ext_iff]
    refine ⟨?_, rfl⟩
    show 0.5 * 0 * m * m / ((x0 + d - x0) * (x0 + d - x0))
        - 10 * e * q0 * q1 / ((x0 + d - x0) * (x0 + d - x0))
        = -(10 * e * q0 * q1) / (d * d)
    rw [show x0 + d - x0 = d from by ring]
    ring
  rcases hq with hcase | hcase
  · -- opposite charges: the first body accelerates in the +x direction
    have hqq : 10 * e * q0 * q1 = -(10 * e) := by
      linear_combination (10 * e) * hcase
    have hval : 0 + -(10 * e * q0 * q1) / (d * d) / m = 10 * e / (d ^ 2 * m) := by
      rw [hqq]
      ring
    have hI0 : integrateBody 0 e
        [Particle.mk x0 y0 0 0 r0 m q0 c0, Particle.mk (x0 + d) y0 0 0 r1 m q1 c1]
        0 (Particle.mk x0 y0 0 0 r0 m q0 c0)
        = Particle.mk (x0 + 10 * e / (d ^ 2 * m)) y0 (10 * e / (d ^ 2 * m)) 0
            r0 m q0 c0 := by
      simp only [integrateBody, netForceOn_pair_left, hPF]
      rw [hval, show (0 : ℝ) + 0 / m = 0 from by simp, add_zero]
    have hW0 : wallBody w h (Particle.mk (x0 + 10 * e / (d ^ 2 * m)) y0
          (10 * e / (d ^ 2 * m)) 0 r0 m q0 c0)
        = Particle.mk (x0 + 10 * e / (d ^ 2 * m)) y0 (10 * e / (d ^ 2 * m)) 0
            r0 m q0 c0 := by
      have hx1 : ¬(x0 + 10 * e / (d ^ 2 * m) < 0 ∨ w < x0 + 10 * e / (d ^ 2 * m)) := by
        push_neg
        constructor <;> linarith
      have hy1 : ¬(y0 < 0 ∨ h < y0) := by
        push_neg
        exact ⟨hy0, hyh⟩
      simp only [wallBody, if_neg hx1, if_neg hy1]
      rw [min_eq_right hxw, max_eq_right (by linarith : (0 : ℝ) ≤ x0 + 10 * e / (d ^ 2 * m)),
        min_eq_right hyh, max_eq_right hy0]
    refine ⟨Particle.mk (x0 + 10 * e / (d ^ 2 * m)) y0 (10 * e / (d ^ 2 * m)) 0
        r0 m q0 c0,
      by rw [nbodyStep_pair, hI0, hW0]; rfl, rfl, ?_, ?_⟩
    · intro _
      constructor
      · exact hApos
      · rw [netForceOn_pair_right]
        have hyB : (Particle.mk (x0 + 10 * e / (d ^ 2 * m)) y0
            (10 * e / (d ^ 2 * m)) 0 r0 m q0 c0).y
            = (Particle.mk (x0 + d) y0 0 0 r1 m q1 c1).y := rfl
        have hdB : (Particle.mk (x0 + 10 * e / (d ^ 2 * m)) y0
              (10 * e / (d ^ 2 * m)) 0 r0 m q0 c0).x
            - (Particle.mk (x0 + d) y0 0 0 r1 m q1 c1).x < -2 := by
          show x0 + 10 * e / (d ^ 2 * m) - (x0 + d) < -2
          linarith
        rw [pairForce_left 0 e _ _ hyB hdB]
        apply div_neg_of_neg_of_pos _ hm
        show 10 * e * q1 * q0
              / ((x0 + 10 * e / (d ^ 2 * m) - (x0 + d))
                * (x0 + 10 * e / (d ^ 2 * m) - (x0 + d)))
            - 0.5 * 0 * m * m
              / ((x0 + 10 * e / (d ^ 2 * m) - (x0 + d))
                * (x0 + 10 * e / (d ^ 2 * m) - (x0 + d))) < 0
        have hq2 : 10 * e * q1 * q0 = -(10 * e) := by
          linear_combination (10 * e) * hcase
        have hDneg : x0 + 10 * e / (d ^ 2 * m) - (x0 + d) < 0 := by linarith
        have hDpos : 0 < (x0 + 10 * e / (d ^ 2 * m) - (x0 + d))
            * (x0 + 10 * e / (d ^ 2 * m) - (x0 + d)) :=
          mul_pos_of_neg_of_neg hDneg hDneg
        rw [hq2, show (0.5 : ℝ) * 0 * m * m = 0 from by ring, zero_div, sub_zero]
        exact div_neg_of_neg_of_pos (by linarith) hDpos
    · intro hone
      rw [hcase] at hone
      norm_num at hone
  · -- like charges: the first body accelerates in the -x direction
    have hqq : 10 * e * q0 * q1 = 10 * e := by
      linear_combination (10 * e) * hcase
    have hval : 0 + -(10 * e * q0 * q1) / (d * d) / m = -(10 * e / (d ^ 2 * m)) := by
      rw [hqq]
      ring
    have hI0 : integrateBody 0 e
        [Particle.mk x0 y0 0 0 r0 m q0 c0, Particle.mk (x0 + d) y0 0 0 r1 m q1 c1]
        0 (Particle.mk x0 y0 0 0 r0 m q0 c0)
        = Particle.mk (x0 + -(10 * e / (d ^ 2 * m))) y0 (-(10 * e / (d ^ 2 * m))) 0
            r0 m q0 c0 := by
      simp only [integrateBody, netForceOn_pair_left, hPF]
      rw [hval, show (0 : ℝ) + 0 / m = 0 from by simp, add_zero]
    have hW0 : wallBody w h (Particle.mk (x0 + -(10 * e / (d ^ 2 * m))) y0
          (-(10 * e / (d ^ 2 * m))) 0 r0 m q0 c0)
        = Particle.mk (x0 + -(10 * e / (d ^ 2 * m))) y0 (-(10 * e / (d ^ 2 * m))) 0
            r0 m q0 c0 := by
      have hx1 : ¬(x0 + -(10 * e / (d ^ 2 * m)) < 0
          ∨ w < x0 + -(10 * e / (d ^ 2 * m))) := by
        push_neg
        constructor <;> linarith
      have hy1 : ¬(y0 < 0 ∨ h < y0) := by
        push_neg
        exact ⟨hy0, hyh⟩
      simp only [wallBody, if_neg hx1, if_neg hy1]
      rw [min_eq_right (by linarith : x0 + -(10 * e / (d ^ 2 * m)) ≤ w),
        max_eq_right (by linarith : (0 : ℝ) ≤ x0 + -(10 * e / (d ^ 2 * m))),
        min_eq_right hyh, max_eq_right hy0]
    refine ⟨Particle.mk (x0 + -(10 * e / (d ^ 2 * m))) y0 (-(10 * e / (d ^ 2 * m))) 0
        r0 m q0 c0,
      by rw [nbodyStep_pair, hI0, hW0]; rfl, rfl, ?_, ?_⟩
    · intro hone
      rw [hcase] at hone
      norm_num at hone
    · intro _
      constructor
      · show -(10 * e / (d ^ 2 * m)) < 0
        linarith
      · rw [netForceOn_pair_right]
        have hyB : (Particle.mk (x0 + -(10 * e / (d ^ 2 * m))) y0
            (-(10 * e / (d ^ 2 * m))) 0 r0 m q0 c0).y
            = (Particle.mk (x0 + d) y0 0 0 r1 m q1 c1).y := rfl
        have hdB : (Particle.mk (x0 + -(10 * e / (d ^ 2 * m))) y0
              (-(10 * e / (d ^ 2 * m))) 0 r0 m q0 c0).x
            - (Particle.mk (x0 + d) y0 0 0 r1 m q1 c1).x < -2 := by
          show x0 + -(10 * e / (d ^ 2 * m)) - (x0 + d) < -2
          linarith
        rw [pairForce_left 0 e _ _ hyB hdB]
        apply div_pos _ hm
        show 0 < 10 * e * q1 * q0
              / ((x0 + -(10 * e / (d ^ 2 * m)) - (x0 + d))
                * (x0 + -(10 * e / (d ^ 2 * m)) - (x0 + d)))
            - 0.5 * 0 * m * m
              / ((x0 + -(10 * e / (d ^ 2 * m)) - (x0 + d))
                * (x0 + -(10 * e / (d ^ 2 * m)) - (x0 + d)))
        have hq2 : 10 * e * q1 * q0 = 10 * e := by
          linear_combination (10 * e) * hcase
        have hDneg : x0 + -(10 * e / (d ^ 2 * m)) - (x0 + d) < 0 := by linarith
        have hDpos : 0 < (x0 + -(10 * e / (d ^ 2 * m)) - (x0 + d))
            * (x0 + -(10 * e / (d ^ 2 * m)) - (x0 + d)) :=
          mul_pos_of_neg_of_neg hDneg hDneg
        rw [hq2, show (0.5 : ℝ) * 0 * m * m = 0 from by ring, zero_div, sub_zero]
        exact div_pos (by linarith) hDpos

/-- C9 (witness): the amended statement at a concrete configuration — equal
masses 1, opposite unit charges, separation 10, electrostatic coefficient 1,
domain 100 × 100. -/
theorem claim9_witness :
    (0 : ℝ) < 1 ∧ (0 : ℝ) < 1 ∧ (2 : ℝ) < 10 ∧ (0 : ℝ) ≤ 50 ∧ (50 : ℝ) ≤ 100
    ∧ ((1 : ℝ) * (-1) = -1 ∨ (1 : ℝ) * (-1) = 1)
    ∧ 10 * 1 / ((10 : ℝ) ^ 2 * 1) ≤ 40
    ∧ (40 : ℝ) + 10 * 1 / ((10 : ℝ) ^ 2 * 1) ≤ 100
    ∧ (2 : ℝ) + 10 * 1 / ((10 : ℝ) ^ 2 * 1) < 10
    ∧ (∃ b0, (nbodyStep 0 1 100 100
          [Particle.mk (40 : ℝ) 50 0 0 3 1 1 "#38bdf8",
            Particle.mk ((40 : ℝ) + 10) 50 0 0 2 1 (-1) "#f43f5e"])[0]? = some b0
        ∧ b0.vy = 0
        ∧ ((1 : ℝ) * (-1) = -1 → 0 < b0.vx
            ∧ (netForceOn 0 1 (Particle.mk ((40 : ℝ) + 10) 50 0 0 2 1 (-1) "#f43f5e") 1
                [b0, Particle.mk ((40 : ℝ) + 10) 50 0 0 2 1 (-1) "#f43f5e"]).1 / 1 < 0)
        ∧ ((1 : ℝ) * (-1) = 1 → b0.vx < 0
            ∧ 0 < (netForceOn 0 1 (Particle.mk ((40 : ℝ) + 10) 50 0 0 2 1 (-1) "#f43f5e") 1
                [b0, Particle.mk ((40 : ℝ) + 10) 50 0 0 2 1 (-1) "#f43f5e"]).1 / 1)) :=
  ⟨by norm_num, by norm_num, by norm_num, by norm_num, by norm_num,
    by norm_num, by norm_num, by norm_num, by norm_num,
    claim9_amended 1 1 10 40 50 100 100 1 (-1) 3 2 "#38bdf8" "#f43f5e"
      (by norm_num) (by norm_num) (by norm_num) (by norm_num) (by norm_num)
      (by norm_num) (by norm_num) (by norm_num) (by norm_num)⟩

/-! ### Claims about reset, the incline force model and the projectile -/

/-- C3 (counterexample): two successive N-body resets are not identical.  The
second `resetSimulation` call consumes the next 250 draws of the random
stream, so on a stream whose first 250 draws are 0 and whose later draws are
1/2 the two resets produce different populations (already the first particle
position differs). -/
theorem claim3_counterexample :
    resetSimulationPopulation 100 100 crandStream 0
      ≠ resetSimulationPopulation 100 100 crandStream 250 := by
  intro heq
  have hx := congrArg (fun l => (l.head?).map Particle.x) heq
  have e1 : ((resetSimulationPopulation 100 100 crandStream 0).head?).map Particle.x
      = some ((0 : ℝ) * 100) := rfl
  have e2 : ((resetSimulationPopulation 100 100 crandStream 250).head?).map Particle.x
      = some ((1 / 2 : ℝ) * 100) := rfl
  simp only at hx
  rw [e1, e2] at hx
  norm_num at hx

/-- C3 (amended): reset is idempotent for the deterministic demos — the
pendulum's reset discards the previous state entirely, so a second reset
reproduces the first exactly — and the N-body reset is deterministic in the
random draws: two resets that consume equal draws produce equal populations.
Two successive N-body resets, however, consume disjoint segments of the
random stream and so need not coincide. -/
theorem claim3_amended (initialAngle w h : ℝ) (s : PendState)
    (rand1 rand2 : ℕ → ℝ) (start : ℕ)
    (hagree : ∀ j, j < 250 → rand1 (start + j) = rand2 (start + j)) :
    pendResetFrom initialAngle (pendResetFrom initialAngle s)
        = pendResetFrom initialAngle s
    ∧ resetSimulationPopulation w h rand1 start
        = resetSimulationPopulation w h rand2 start := by
  constructor
  · rfl
  · unfold resetSimulationPopulation
    refine List.map_congr_left ?_
    intro i hi
    have hi50 : i < 50 := List.mem_range.mp hi
    have h1 := hagree (5 * i) (by omega)
    have h2 := hagree (5 * i + 1) (by omega)
    have h3 := hagree (5 * i + 2) (by omega)
    have h4 := hagree (5 * i + 3) (by omega)
    have h5 := hagree (5 * i + 4) (by omega)
    simp only [Nat.add_assoc] at h1 h2 h3 h4 h5 ⊢
    rw [h1, h2, h3, h4, h5]

/-- C3 (witness): the amended statement with both resets reading the same
constant stream. -/
theorem claim3_witness :
    (∀ j, j < 250 → (fun _ : ℕ => (0 : ℝ)) (0 + j) = (fun _ : ℕ => (0 : ℝ)) (0 + j))
    ∧ (pendResetFrom 30 (pendResetFrom 30 (PendState.mk 1 2 3 4))
          = pendResetFrom 30 (PendState.mk 1 2 3 4)
      ∧ resetSimulationPopulation 100 100 (fun _ => 0) 0
          = resetSimulationPopulation 100 100 (fun _ => 0) 0) :=
  ⟨fun _ _ => rfl,
    claim3_amended 30 100 100 (PendState.mk 1 2 3 4) (fun _ => 0) (fun _ => 0) 0
      (fun _ _ => rfl)⟩

/-- C7: the incline acceleration is clamped to 0 whenever
`sin θ ≤ μ cos θ`, equals `9.81 (sin θ - μ cos θ)` whenever the net force
`m · 9.81 · sin θ - μ (m · 9.81 · cos θ)` is positive, and at θ = 30°, m = 5,
μ = 0.2 it equals `9.81 (sin (π/6) - 0.2 cos (π/6))` exactly. -/
theorem claim7 (angleDeg mass friction : ℝ) (hm : 0 < mass) :
    (Real.sin (angleDeg * π / 180) ≤ friction * Real.cos (angleDeg * π / 180) →
      inclineAcceleration angleDeg mass friction = 0)
    ∧ (0 < mass * 9.81 * Real.sin (angleDeg * π / 180)
          - friction * (mass * 9.81 * Real.cos (angleDeg * π / 180)) →
      inclineAcceleration angleDeg mass friction
        = 9.81 * (Real.sin (angleDeg * π / 180)
            - friction * Real.cos (angleDeg * π / 180)))
    ∧ inclineAcceleration 30 5 0.2
        = 9.81 * (Real.sin (π / 6) - 0.2 * Real.cos (π / 6)) := by
  refine ⟨?_, ?_, ?_⟩
  · intro hle
    simp only [inclineAcceleration]
    rw [if_neg]
    exact not_lt.mpr (by nlinarith)
  · intro hpos
    simp only [inclineAcceleration]
    rw [if_pos hpos]
    field_simp
    ring
  · have h3 : Real.sqrt 3 < 2 := by
      have h4 : (2 : ℝ) = Real.sqrt 4 := by
        rw [show (4 : ℝ) = 2 ^ 2 by norm_num, Real.sqrt_sq (by norm_num)]
      rw [h4]
      exact Real.sqrt_lt_sqrt (by norm_num) (by norm_num)
    simp only [inclineAcceleration]
    rw [show (30 : ℝ) * π / 180 = π / 6 by ring]
    rw [if_pos (by rw [Real.sin_pi_div_six, Real.cos_pi_div_six]; nlinarith)]
    rw [Real.sin_pi_div_six, Real.cos_pi_div_six]
    ring

/-- C7 (witness): the statement at θ = 30°, m = 5, μ = 0.2. -/
theorem claim7_witness :
    (0 : ℝ) < 5
    ∧ ((Real.sin (30 * π / 180) ≤ 0.2 * Real.cos (30 * π / 180) →
          inclineAcceleration 30 5 0.2 = 0)
      ∧ (0 < 5 * 9.81 * Real.sin (30 * π / 180)
            - 0.2 * (5 * 9.81 * Real.cos (30 * π / 180)) →
          inclineAcceleration 30 5 0.2
            = 9.81 * (Real.sin (30 * π / 180) - 0.2 * Real.cos (30 * π / 180)))
      ∧ inclineAcceleration 30 5 0.2
          = 9.81 * (Real.sin (π / 6) - 0.2 * Real.cos (π / 6))) :=
  ⟨by norm_num, claim7 30 5 0.2 (by norm_num)⟩

/-- C10: with initial height 0 the computed range equals
`v² sin(2θ) / 9.81` exactly in real arithmetic; for every parameter
combination the final sample of the generated trajectory has height exactly 0
and sits at the time of flight solved from `y(t) = 0`; and that time is
indeed a root of the height function whenever the initial height is
nonnegative. -/
theorem claim10 (velocity angleDeg height : ℝ) (hv : 0 ≤ velocity)
    (h0 : 0 ≤ angleDeg) (h90 : angleDeg ≤ 90) :
    projectileRange velocity angleDeg 0
        = velocity ^ 2 * Real.sin (2 * (angleDeg * π / 180)) / 9.81
    ∧ ((trajectoryData velocity angleDeg height).getLast?).map (fun s => s.2.2)
        = some 0
    ∧ ((trajectoryData velocity angleDeg height).getLast?).map (fun s => s.1)
        = some (projectileTimeOfFlight velocity angleDeg height)
    ∧ (0 ≤ height →
        projectileHeightAt velocity angleDeg height
          (projectileTimeOfFlight velocity angleDeg height) = 0) := by
  have hsin : 0 ≤ Real.sin (angleDeg * π / 180) := by
    apply Real.sin_nonneg_of_nonneg_of_le_pi
    · have := Real.pi_pos
      positivity
    · have := Real.pi_pos
      nlinarith
  refine ⟨?_, ?_, ?_, ?_⟩
  · have hv0y : 0 ≤ velocity * Real.sin (angleDeg * π / 180) := mul_nonneg hv hsin
    simp only [projectileRange, projectileTimeOfFlight]
    rw [show (2 : ℝ) * 9.81 * 0 = 0 by norm_num, add_zero, Real.sqrt_sq hv0y,
      Real.sin_two_mul]
    ring
  · simp [trajectoryData, List.getLast?_concat]
  · simp [trajectoryData, List.getLast?_concat]
  · intro hh
    simp only [projectileHeightAt, projectileTimeOfFlight]
    have harg : 0 ≤ (velocity * Real.sin (angleDeg * π / 180)) ^ 2
        + 2 * 9.81 * height := by positivity
    have hs2 : Real.sqrt ((velocity * Real.sin (angleDeg * π / 180)) ^ 2
          + 2 * 9.81 * height) ^ 2
        = (velocity * Real.sin (angleDeg * π / 180)) ^ 2 + 2 * 9.81 * height :=
      Real.sq_sqrt harg
    set v0y := velocity * Real.sin (angleDeg * π / 180) with hv0ydef
    set s := Real.sqrt (v0y ^ 2 + 2 * 9.81 * height) with hsdef
    have expand : height + v0y * ((v0y + s) / 9.81)
          - 0.5 * 9.81 * ((v0y + s) / 9.81) ^ 2
        = (2 * 9.81 * height + v0y ^ 2 - s ^ 2) / (2 * 9.81) := by
      ring
    rw [expand, hs2]
    ring

/-- C10 (witness): the statement at velocity 50, angle 45°, height 0. -/
theorem claim10_witness :
    (0 : ℝ) ≤ 50 ∧ (0 : ℝ) ≤ 45 ∧ (45 : ℝ) ≤ 90
    ∧ (projectileRange 50 45 0 = 50 ^ 2 * Real.sin (2 * (45 * π / 180)) / 9.81
      ∧ ((trajectoryData 50 45 0).getLast?).map (fun s => s.2.2) = some 0
      ∧ ((trajectoryData 50 45 0).getLast?).map (fun s => s.1)
          = some (projectileTimeOfFlight 50 45 0)
      ∧ ((0 : ℝ) ≤ 0 →
          projectileHeightAt 50 45 0 (projectileTimeOfFlight 50 45 0) = 0)) :=
  ⟨by norm_num, by norm_num, by norm_num,
    claim10 50 45 0 (by norm_num) (by norm_num) (by norm_num)⟩

end PhysicsLab
